import Mathlib

/-!
Shallow embedding of the `ConnectionTabsService` session store of the
repository (source: `src/unnamed/part_000`, duplicated with minor variation in
`src/src/pages/console/sidebar/db-connection-header.tsx`), together with
theorems settling the specification claims about it.

Modelling conventions:
* JavaScript arrays become `List`; numeric cursors become `Int` (so that the
  JS access `tabs[idx - 1]` at `idx = 0`, which reads index `-1` and yields
  `undefined`, is representable); `undefined` becomes `none`.
* `DbSchema` and `ConnectionConfig` are opaque to this service (it only stores
  and forwards them), so they are modelled as opaque string payloads; result
  rows are opaque records modelled as key/value lists.
* The asynchronous external calls (`store.get/set/save`, `invoke
  "init_connection"`) are modelled by explicit inputs: the persisted blob is a
  `Blob` value (absent / unparsable / parsed) and the outcome of the i-th
  sequential `init_connection` attempt during hydration is an oracle
  `ok : Nat → Bool`.
-/

namespace Noir

/-- Opaque database-schema payload (`DbSchema` in `src/interfaces`, never
inspected by this service). -/
abbrev DbSchema := String

/-- Opaque connection-configuration payload (`ConnectionConfig`, only forwarded
to the external `init_connection` call). -/
abbrev ConnectionConfig := String

/-- An opaque result-row record (`Record<string, any>` in the source). -/
abbrev Row := List (String × String)

/-- The `MessageType` enumeration of `part_000` lines 10-15. -/
inductive MessageType where
  | error
  | info
  | success
  | warning
deriving DecidableEq, Repr

/-- The optional `error` field of a content tab: `{message, type}`
(`part_000` lines 48-51). -/
structure ErrorMsg where
  message : String
  type : MessageType
deriving DecidableEq, Repr

/-- The `ContentComponent` discriminant keys (`part_000` lines 17-20). -/
inductive ContentKey where
  | QueryTab
  | TableStructureTab
deriving DecidableEq, Repr

/-- Data of a `QueryTab` content tab: `{query, results}` (`part_000`
lines 31-34). -/
structure QueryTabData where
  query : String
  results : List Row
deriving DecidableEq, Repr

/-- Data of a `TableStructureTab` content tab (`part_000` lines 35-41); the
source field `structure` is a Lean keyword, rendered `structure'`. -/
structure TableStructureTabData where
  table : String
  structure' : List Row
  indices : List Row
  foreignKeys : List Row
  triggers : List Row
deriving DecidableEq, Repr

/-- The variant-dependent `data` field of a content tab (`ContentTabData`,
`part_000` lines 30-42). -/
inductive TabData where
  | query (d : QueryTabData)
  | tableStructure (d : TableStructureTabData)
deriving DecidableEq, Repr

/-- A content tab (`ContentTab`, `part_000` lines 44-52): label, discriminant
key, variant data and optional error message. -/
structure ContentTab where
  label : String
  key : ContentKey
  data : TabData
  error : Option ErrorMsg
deriving DecidableEq, Repr

/-- A connection tab (`part_000` lines 58-63). -/
structure ConnectionTab where
  label : String
  id : String
  schema : DbSchema
  connection : ConnectionConfig
deriving DecidableEq, Repr

/-- Store `ConnectionStore` (`part_000` lines 79-82). -/
structure ConnectionStore where
  tabs : List ConnectionTab
  idx : Int
deriving DecidableEq, Repr

/-- Store `ContentStore` (`part_000` lines 84-87). -/
structure ContentStore where
  tabs : List ContentTab
  idx : Int
deriving DecidableEq, Repr

/-- The two reactive stores owned by one `ConnectionTabsService` instance
(`part_000` lines 90-97). -/
structure SessionState where
  connectionStore : ConnectionStore
  contentStore : ContentStore
deriving DecidableEq, Repr

/-- JavaScript array indexing `l[i]`: `undefined` (`none`) when `i` is
negative or at least the length. -/
def jsIndex {α : Type} (l : List α) (i : Int) : Option α :=
  if 0 ≤ i then l.get? i.toNat else none

/-- The module-level fresh query tab `NEW_QUERY_TAB` (`part_000` lines
22-26): label `"Query"`, empty query, empty results, no error. -/
def NEW_QUERY_TAB : ContentTab :=
  { label := "Query"
    key := ContentKey.QueryTab
    data := TabData.query { query := "", results := [] }
    error := none }

/-- Function `getActiveConnection` (`part_000` lines 144-146):
`connectionStore.tabs[connectionStore.idx - 1]` — the sentinel-offset read. -/
def getActiveConnection (c : ConnectionStore) : Option ConnectionTab :=
  jsIndex c.tabs (c.idx - 1)

/-- Function `getActiveContentTab` (`part_000` lines 148-150):
`contentStore.tabs[contentStore.idx]`. -/
def getActiveContentTab (c : ContentStore) : Option ContentTab :=
  jsIndex c.tabs c.idx

/-- Function `addTab` (`part_000` lines 122-129). Early-returns when `find` locates a
tab with the same `id` (objects are truthy, so the JS `if (find(...))` test is
`isSome`); otherwise appends the tab, resets the content tabs to the single
`NEW_QUERY_TAB`, and sets `connectionStore.idx` to the length of the already
updated tab list (solid-js store writes are synchronous, so
`connectionStore.tabs.length` on line 126 reads the new length).
`contentStore.idx` is not touched. -/
def addTab (tab : ConnectionTab) (st : SessionState) : SessionState :=
  if (st.connectionStore.tabs.find? (fun t => t.id == tab.id)).isSome then st
  else
    let tabs := st.connectionStore.tabs ++ [tab]
    { connectionStore := { tabs := tabs, idx := (tabs.length : Int) }
      contentStore := { st.contentStore with tabs := [NEW_QUERY_TAB] } }

/-- Function `removeTab` (`part_000` lines 131-138): keep the tabs whose `id` differs,
then unconditionally set `connectionStore.idx` to `0`. -/
def removeTab (id : String) (st : SessionState) : SessionState :=
  { st with
    connectionStore :=
      { tabs := st.connectionStore.tabs.filter (fun t => t.id != id), idx := 0 } }

/-- The shared `contentStore.tabs.map((t, i) => i === contentStore.idx ? f(t) : t)`
pattern of the three content-tab mutators (`part_000` lines 155-160, 166-176,
185-195). -/
def mapActiveTab (c : ContentStore) (f : ContentTab → ContentTab) : List ContentTab :=
  c.tabs.enum.map (fun p => if (p.1 : Int) = c.idx then f p.2 else p.2)

/-- Function `setActiveContentQueryTabData` (`part_000` lines 152-161): no-op when
there is no active content tab, otherwise replaces the `data` field of the tab
at `contentStore.idx` (the spread `{...t, data}` keeps `label`, `key`,
`error`). -/
def setActiveContentQueryTabData (d : QueryTabData) (st : SessionState) : SessionState :=
  match getActiveContentTab st.contentStore with
  | none => st
  | some _ =>
      { st with
        contentStore :=
          { st.contentStore with
            tabs := mapActiveTab st.contentStore
              (fun t => { t with data := TabData.query d }) } }

/-- Function `resetActiveContentQueryTabMessage` (`part_000` lines 163-177): clears the
`error` field of the active content tab; no-op when there is none. -/
def resetActiveContentQueryTabMessage (st : SessionState) : SessionState :=
  match getActiveContentTab st.contentStore with
  | none => st
  | some _ =>
      { st with
        contentStore :=
          { st.contentStore with
            tabs := mapActiveTab st.contentStore (fun t => { t with error := none }) } }

/-- Function `setActiveContentQueryTabMessage` (`part_000` lines 179-196): sets the
`error` field of the active content tab to `{type, message}`; no-op when there
is none. -/
def setActiveContentQueryTabMessage (type : MessageType) (message : String)
    (st : SessionState) : SessionState :=
  match getActiveContentTab st.contentStore with
  | none => st
  | some _ =>
      { st with
        contentStore :=
          { st.contentStore with
            tabs := mapActiveTab st.contentStore
              (fun t => { t with error := some { message := message, type := type } }) } }

/-! Hydration model: `getSavedData` and the `onMount` body. -/

/-- The observable state of one persisted blob: missing, present but not valid
JSON, or parsed to a value of the expected shape. -/
inductive Blob (α : Type) where
  | absent
  | unparsable
  | parsed (v : α)
deriving DecidableEq, Repr

/-- Result of `getSavedData(CONNECTIONS_TABS_KEY)` (`part_000` lines 68-77,
called at line 100 with no `defaultValue` argument): the parsed
`ConnectionStore` when the blob parses, otherwise the function's default
`defaultValue = []` — a plain empty JS array, not a `ConnectionStore`
record. -/
inductive ConnRead where
  | defaultEmptyArray
  | store (s : ConnectionStore)
deriving DecidableEq, Repr

/-- Result of `getSavedData(CONTENT_TABS_KEY)` (`part_000` line 112), with the
same function-default `[]` for an absent or unparsable blob. -/
inductive ContentRead where
  | defaultEmptyArray
  | store (c : ContentStore)
deriving DecidableEq, Repr

/-- Function `getSavedData` at the `"_conn_tabs"` call site: absent (`!str`) and
unparsable (`JSON.parse` throws) blobs both yield the default `[]`. -/
def getSavedConnData : Blob ConnectionStore → ConnRead
  | Blob.absent => ConnRead.defaultEmptyArray
  | Blob.unparsable => ConnRead.defaultEmptyArray
  | Blob.parsed s => ConnRead.store s

/-- Function `getSavedData` at the `"_content_tabs"` call site. -/
def getSavedContentData : Blob ContentStore → ContentRead
  | Blob.absent => ContentRead.defaultEmptyArray
  | Blob.unparsable => ContentRead.defaultEmptyArray
  | Blob.parsed c => ContentRead.store c

/-- The JavaScript runtime error hydration can raise. -/
inductive JsError where
  | typeError
deriving DecidableEq, Repr

/-- The sequential `reduce` over the saved tabs (`part_000` lines 101-110):
starting from `[]`, each saved tab is kept (`[...res, conn]`) when its
`init_connection` attempt succeeds and skipped when it throws. `ok i` is the
outcome of the i-th attempt, made in save order. -/
def hydrateTabs (ok : Nat → Bool) (tabs : List ConnectionTab) : List ConnectionTab :=
  tabs.enum.foldl (fun res p => if ok p.1 then res ++ [p.2] else res) []

/-- The `onMount` hydration body (`part_000` lines 99-114). When the
`"_conn_tabs"` blob is absent or unparsable, `conn_tabs` is the default `[]`,
so `conn_tabs.tabs` is `undefined` and `undefined.reduce` throws a
`TypeError`: hydration aborts before either store is written and before the
`"_content_tabs"` blob is read. Otherwise the surviving tabs replace `tabs`
in the spread `{...conn_tabs, tabs}` (keeping the persisted `idx` as is) and
`contentStore` is replaced wholesale by whatever the content read returned. -/
def onMountHydrate (connBlob : Blob ConnectionStore) (contentBlob : Blob ContentStore)
    (ok : Nat → Bool) : Except JsError (ConnectionStore × ContentRead) :=
  match getSavedConnData connBlob with
  | ConnRead.defaultEmptyArray => Except.error JsError.typeError
  | ConnRead.store s =>
      Except.ok ({ tabs := hydrateTabs ok s.tabs, idx := s.idx }, getSavedContentData contentBlob)

/-! Debounced persistence (`updateStore`). The `debounce` helper comes from
`utils/utils`, which is not among the visible source files; it is modelled
from the spec. -/

/-- Modelled from the spec: the store state current at time `t`, given the
timeline `calls` of mutating calls (time, state right after the call) in call
order — the state of the last call at or before `t`, or `init` when none has
happened yet. (State only changes at mutating calls.) -/
def stateAtTime (calls : List (Int × SessionState)) (init : SessionState) (t : Int) :
    SessionState :=
  (calls.filter (fun c => decide (c.1 ≤ t))).foldl (fun _ c => c.2) init

/-- Modelled from the spec: trailing-edge `debounce` from `utils/utils` (not
in src/). Each call schedules the wrapped callback at its time plus `delay`;
a further call at or before that moment supersedes the pending timer. The
result is the list of times at which the callback actually fires. -/
def fireTimes (delay : Int) : List Int → List Int
  | [] => []
  | [t] => [t + delay]
  | t :: t2 :: rest =>
      (if t2 ≤ t + delay then [] else [t + delay]) ++ fireTimes delay (t2 :: rest)

/-- Modelled from the spec: the debounced `updateStore` (`part_000` lines
116-120) wrapped around the timeline of mutating calls. At each fire time the
callback serializes the *then current* `connectionStore` and `contentStore`
(the closure reads the live stores, not a snapshot). Returns the performed
persistence writes as (fire time, serialized pair). -/
def updateStoreWrites (delay : Int) (init : SessionState)
    (calls : List (Int × SessionState)) : List (Int × (ConnectionStore × ContentStore)) :=
  (fireTimes delay (calls.map Prod.fst)).map
    (fun ft =>
      (ft, ((stateAtTime calls init ft).connectionStore, (stateAtTime calls init ft).contentStore)))

/-- The content-store index invariant of the spec: whenever `tabs` is
non-empty, `idx` lies within `[0, len(tabs))`. -/
def contentIdxInvariant (c : ContentStore) : Prop :=
  c.tabs ≠ [] → 0 ≤ c.idx ∧ c.idx < (c.tabs.length : Int)

instance (c : ContentStore) : Decidable (contentIdxInvariant c) := by
  unfold contentIdxInvariant
  infer_instance

/-! Concrete sample values used to instantiate the theorems. -/

/-- A sample query-tab payload. -/
def dW : QueryTabData := { query := "select 2", results := [] }

/-- A sample query content tab. -/
def tabQ : ContentTab :=
  { label := "Query"
    key := ContentKey.QueryTab
    data := TabData.query { query := "select 1", results := [] }
    error := none }

/-- A sample table-structure content tab. -/
def tabT : ContentTab :=
  { label := "users"
    key := ContentKey.TableStructureTab
    data := TabData.tableStructure
      { table := "users", structure' := [], indices := [], foreignKeys := [], triggers := [] }
    error := some { message := "stale", type := MessageType.warning } }

/-- Sample connection tabs with distinct ids. -/
def tConnA : ConnectionTab := { label := "alpha", id := "a", schema := "sa", connection := "ca" }

/-- Second sample connection tab. -/
def tConnB : ConnectionTab := { label := "beta", id := "b", schema := "sb", connection := "cb" }

/-- Third sample connection tab. -/
def tConnC : ConnectionTab := { label := "gamma", id := "c", schema := "sc", connection := "cc" }

/-- The freshly constructed service state (both stores empty, cursors 0). -/
def stEmpty : SessionState :=
  { connectionStore := { tabs := [], idx := 0 }, contentStore := { tabs := [], idx := 0 } }

/-- A state with two content tabs and the first one active. -/
def stW2 : SessionState :=
  { connectionStore := { tabs := [], idx := 0 }
    contentStore := { tabs := [tabQ, tabT], idx := 0 } }

/-- A state with two content tabs and the second one active. -/
def stC3 : SessionState :=
  { connectionStore := { tabs := [], idx := 0 }
    contentStore := { tabs := [tabQ, tabT], idx := 1 } }

/-- A reconnection oracle that fails exactly the second attempt. -/
def okW : Nat → Bool := fun n => n != 1

/-- A state holding one connection tab. -/
def stA : SessionState :=
  { connectionStore := { tabs := [tConnA], idx := 1 }
    contentStore := { tabs := [NEW_QUERY_TAB], idx := 0 } }

/-- A state holding two connection tabs. -/
def stB : SessionState :=
  { connectionStore := { tabs := [tConnA, tConnB], idx := 2 }
    contentStore := { tabs := [NEW_QUERY_TAB], idx := 0 } }

/-- A burst of two mutating calls one time unit apart. -/
def callsW : List (Int × SessionState) := [(0, stA), (1, stB)]

/-! Helper lemmas. -/

theorem jsIndex_eq_some {α : Type} {l : List α} {i : Int} {a : α} :
    jsIndex l i = some a ↔ 0 ≤ i ∧ l[i.toNat]? = some a := by
  unfold jsIndex
  split <;> simp_all

theorem length_mapActiveTab (c : ContentStore) (f : ContentTab → ContentTab) :
    (mapActiveTab c f).length = c.tabs.length := by
  simp [mapActiveTab, List.enum_length]

theorem getElem?_mapActiveTab (c : ContentStore) (f : ContentTab → ContentTab) (n : Nat) :
    (mapActiveTab c f)[n]? =
      (c.tabs[n]?).map (fun t => if (n : Int) = c.idx then f t else t) := by
  unfold mapActiveTab
  rw [List.getElem?_map, List.getElem?_enum]
  cases c.tabs[n]? <;> rfl

/-! Claim theorems. -/

/-- Claim C1 (code bug evidence). The claim says an absent or unparsable
`"_conn_tabs"` blob defaults to `{tabs: [], idx: 0}` and hydration completes
without error. In the code, `getSavedData` is called without a `defaultValue`
argument, so both cases yield the plain empty array `[]`; `conn_tabs.tabs` is
then `undefined` and `undefined.reduce` throws a `TypeError`, aborting
hydration before either store is written (and before the `"_content_tabs"`
blob is read). The content-blob read likewise defaults to `[]`, not to
`{tabs: [], idx: 0}`. -/
theorem hydration_crashes_on_missing_blob :
    (∀ (contentBlob : Blob ContentStore) (ok : Nat → Bool),
        onMountHydrate Blob.absent contentBlob ok = Except.error JsError.typeError ∧
        onMountHydrate Blob.unparsable contentBlob ok = Except.error JsError.typeError) ∧
    getSavedConnData Blob.absent = ConnRead.defaultEmptyArray ∧
    getSavedConnData Blob.unparsable = ConnRead.defaultEmptyArray ∧
    getSavedContentData Blob.absent = ContentRead.defaultEmptyArray ∧
    getSavedContentData Blob.unparsable = ContentRead.defaultEmptyArray :=
  ⟨fun _ _ => ⟨rfl, rfl⟩, rfl, rfl, rfl, rfl⟩

/-- Claim C7: for every `id`, existing or not, `removeTab id` keeps exactly
the tabs whose id differs (a subsequence of the original, in order),
unconditionally resets `connectionStore.idx` to `0`, leaves the content store
untouched, and afterwards `getActiveConnection()` reads `tabs[-1]`, i.e.
`undefined`. -/
theorem removeTab_filters_and_deselects (st : SessionState) (id : String) :
    (removeTab id st).connectionStore.tabs =
      st.connectionStore.tabs.filter (fun t => t.id != id) ∧
    (∀ t : ConnectionTab,
      t ∈ (removeTab id st).connectionStore.tabs ↔
        t ∈ st.connectionStore.tabs ∧ t.id ≠ id) ∧
    List.Sublist (removeTab id st).connectionStore.tabs st.connectionStore.tabs ∧
    (removeTab id st).connectionStore.idx = 0 ∧
    getActiveConnection (removeTab id st).connectionStore = none ∧
    (removeTab id st).contentStore = st.contentStore := by
  refine ⟨rfl, ?_, ?_, rfl, ?_, rfl⟩
  · intro t
    simp [removeTab, List.mem_filter]
  · exact List.filter_sublist _
  · simp [getActiveConnection, removeTab, jsIndex]

/-- Witness for C7 at a concrete state and id. -/
theorem removeTab_filters_and_deselects_witness :
    getActiveConnection (removeTab "a" stB).connectionStore = none :=
  (removeTab_filters_and_deselects stB "a").2.2.2.2.1

/-- Claim C8: when there is no active content tab (the cursor is out of range
of `contentStore.tabs`, including negative), each of the three content-tab
mutators is a strict no-op on the whole session state. They are total Lean
functions, so no exception is possible. -/
theorem mutators_noop_without_active_tab (st : SessionState) (d : QueryTabData)
    (ty : MessageType) (m : String)
    (h : getActiveContentTab st.contentStore = none) :
    setActiveContentQueryTabData d st = st ∧
    setActiveContentQueryTabMessage ty m st = st ∧
    resetActiveContentQueryTabMessage st = st := by
  unfold setActiveContentQueryTabData setActiveContentQueryTabMessage
    resetActiveContentQueryTabMessage
  rw [h]
  exact ⟨rfl, rfl, rfl⟩

/-- Witness for C8: the mutators no-op on the freshly constructed state,
whose content-tab list is empty. -/
theorem mutators_noop_witness :
    setActiveContentQueryTabData dW stEmpty = stEmpty ∧
    setActiveContentQueryTabMessage MessageType.error "boom" stEmpty = stEmpty ∧
    resetActiveContentQueryTabMessage stEmpty = stEmpty :=
  mutators_noop_without_active_tab stEmpty dW MessageType.error "boom" (by decide)

/-- Claim C2: with an active content tab present at `contentStore.idx`,
`setActiveContentQueryTabData d` leaves the connection store, the content
cursor and the tab count alone, replaces exactly the `data` field of the
active tab (keeping its `label`, `key` and `error`), and leaves every tab at
any other index unchanged. -/
theorem setData_targets_active_only (st : SessionState) (d : QueryTabData)
    (tab : ContentTab) (h : getActiveContentTab st.contentStore = some tab) :
    (setActiveContentQueryTabData d st).connectionStore = st.connectionStore ∧
    (setActiveContentQueryTabData d st).contentStore.idx = st.contentStore.idx ∧
    (setActiveContentQueryTabData d st).contentStore.tabs.length =
      st.contentStore.tabs.length ∧
    (setActiveContentQueryTabData d st).contentStore.tabs[st.contentStore.idx.toNat]? =
      some { label := tab.label, key := tab.key, data := TabData.query d,
             error := tab.error } ∧
    (∀ n : Nat, (n : Int) ≠ st.contentStore.idx →
      (setActiveContentQueryTabData d st).contentStore.tabs[n]? =
        st.contentStore.tabs[n]?) := by
  have hj : jsIndex st.contentStore.tabs st.contentStore.idx = some tab := h
  obtain ⟨hi, hg⟩ := jsIndex_eq_some.mp hj
  have hset : setActiveContentQueryTabData d st =
      { st with
        contentStore :=
          { st.contentStore with
            tabs := mapActiveTab st.contentStore
              (fun t => { t with data := TabData.query d }) } } := by
    unfold setActiveContentQueryTabData
    rw [h]
  rw [hset]
  refine ⟨rfl, rfl, ?_, ?_, ?_⟩
  · exact length_mapActiveTab st.contentStore (fun t => { t with data := TabData.query d })
  · rw [getElem?_mapActiveTab, hg]
    have : ((st.contentStore.idx.toNat : Nat) : Int) = st.contentStore.idx :=
      Int.toNat_of_nonneg hi
    simp [this]
  · intro n hn
    rw [getElem?_mapActiveTab]
    cases st.contentStore.tabs[n]? <;> simp [hn]

/-- Witness for C2: on a state with two content tabs and the first active,
updating the query data rewrites tab 0 and keeps its other fields. -/
theorem setData_targets_active_only_witness :
    (setActiveContentQueryTabData dW stW2).connectionStore = stW2.connectionStore ∧
    (setActiveContentQueryTabData dW stW2).contentStore.tabs[stW2.contentStore.idx.toNat]? =
      some { label := tabQ.label, key := tabQ.key, data := TabData.query dW,
             error := tabQ.error } :=
  ⟨(setData_targets_active_only stW2 dW tabQ (by decide)).1,
   (setData_targets_active_only stW2 dW tabQ (by decide)).2.2.2.1⟩

/-- Counterexample to claim C3 as stated: from a state with two content tabs
and the second active (the invariant holds), adding a fresh connection tab
resets `contentStore.tabs` to the single `NEW_QUERY_TAB` without resetting
`contentStore.idx`, leaving the cursor at 1 with only one tab — the invariant
is broken. -/
theorem addTab_breaks_content_invariant :
    contentIdxInvariant stC3.contentStore ∧
    ¬ contentIdxInvariant ((addTab tConnA stC3).contentStore) := by
  decide

/-- Claim C3 as amended: `removeTab` and the three content-tab mutators
preserve the content-index invariant for every state; `addTab` preserves it
only when it no-ops (duplicate id) or when `contentStore.idx` is already `0`,
because it resets `contentStore.tabs` to a single tab without resetting
`contentStore.idx`. -/
theorem session_ops_preserve_content_invariant (st : SessionState) (id : String)
    (tab : ConnectionTab) (d : QueryTabData) (ty : MessageType) (m : String)
    (h : contentIdxInvariant st.contentStore) :
    contentIdxInvariant (removeTab id st).contentStore ∧
    contentIdxInvariant (setActiveContentQueryTabData d st).contentStore ∧
    contentIdxInvariant (setActiveContentQueryTabMessage ty m st).contentStore ∧
    contentIdxInvariant (resetActiveContentQueryTabMessage st).contentStore ∧
    (st.contentStore.idx = 0 → contentIdxInvariant (addTab tab st).contentStore) ∧
    ((st.connectionStore.tabs.find? (fun t => t.id == tab.id)).isSome →
      contentIdxInvariant (addTab tab st).contentStore) := by
  have hmap : ∀ f : ContentTab → ContentTab,
      contentIdxInvariant
        { st.contentStore with tabs := mapActiveTab st.contentStore f } := by
    intro f hne
    have hlen : (mapActiveTab st.contentStore f).length = st.contentStore.tabs.length :=
      length_mapActiveTab _ _
    have hne0 : st.contentStore.tabs ≠ [] := by
      intro h0
      apply hne
      rw [← List.length_eq_zero, hlen, h0]
      rfl
    have hb := h hne0
    simpa [hlen] using hb
  refine ⟨h, ?_, ?_, ?_, ?_, ?_⟩
  · unfold setActiveContentQueryTabData
    rcases hA : getActiveContentTab st.contentStore with _ | tb
    · exact h
    · exact hmap _
  · unfold setActiveContentQueryTabMessage
    rcases hA : getActiveContentTab st.contentStore with _ | tb
    · exact h
    · exact hmap _
  · unfold resetActiveContentQueryTabMessage
    rcases hA : getActiveContentTab st.contentStore with _ | tb
    · exact h
    · exact hmap _
  · intro hidx
    unfold addTab
    split
    · exact h
    · intro _
      constructor
      · simp [hidx]
      · simp [hidx]
  · intro hfind
    unfold addTab
    rw [if_pos hfind]
    exact h

/-- Witness for the amended C3 at a concrete state satisfying the
invariant. -/
theorem session_ops_preserve_content_invariant_witness :
    contentIdxInvariant (removeTab "a" stC3).contentStore ∧
    contentIdxInvariant (setActiveContentQueryTabData dW stC3).contentStore :=
  ⟨(session_ops_preserve_content_invariant stC3 "a" tConnA dW MessageType.info "m"
      (by decide)).1,
   (session_ops_preserve_content_invariant stC3 "a" tConnA dW MessageType.info "m"
      (by decide)).2.1⟩

/-- Auxiliary: a fold that appends the kept elements equals filter-then-map,
for any accumulator. -/
theorem foldl_keep_eq_filter {α : Type} (p : Nat × α → Bool) :
    ∀ (l : List (Nat × α)) (acc : List α),
      l.foldl (fun res q => if p q then res ++ [q.2] else res) acc =
        acc ++ (l.filter p).map Prod.snd := by
  intro l
  induction l with
  | nil => intro acc; simp
  | cons q l ih =>
      intro acc
      by_cases hq : p q
      · simp [hq, ih, List.filter_cons]
      · simp [hq, ih, List.filter_cons]

/-- Claim C4: hydration keeps exactly the saved tabs whose sequential connect
attempt succeeded, as a subsequence in original save order; in particular,
with three saved tabs and only the second attempt failing, the restored list
is the first and third tab in that order. -/
theorem hydrateTabs_keeps_successful_in_order (ok : Nat → Bool)
    (tabs : List ConnectionTab) :
    hydrateTabs ok tabs = (tabs.enum.filter (fun p => ok p.1)).map Prod.snd ∧
    List.Sublist (hydrateTabs ok tabs) tabs ∧
    (∀ t1 t2 t3 : ConnectionTab, ok 0 = true → ok 1 = false → ok 2 = true →
      hydrateTabs ok [t1, t2, t3] = [t1, t3]) := by
  have heq : hydrateTabs ok tabs = (tabs.enum.filter (fun p => ok p.1)).map Prod.snd := by
    unfold hydrateTabs
    simpa using foldl_keep_eq_filter (fun p => ok p.1) tabs.enum []
  refine ⟨heq, ?_, ?_⟩
  · rw [heq]
    have hsub : List.Sublist (tabs.enum.filter (fun p => ok p.1)) tabs.enum :=
      List.filter_sublist _
    have hmap := hsub.map Prod.snd
    rw [List.enum_map_snd] at hmap
    exact hmap
  · intro t1 t2 t3 h0 h1 h2
    unfold hydrateTabs
    simp [List.enum, List.enumFrom, h0, h1, h2]

/-- Witness for C4: the oracle failing exactly attempt 1 restores the first
and third of three saved tabs. -/
theorem hydrateTabs_witness : hydrateTabs okW [tConnA, tConnB, tConnC] = [tConnA, tConnC] :=
  (hydrateTabs_keeps_successful_in_order okW []).2.2 tConnA tConnB tConnC rfl rfl rfl

/-- Claim C5: `addTab` is idempotent on the tab id — it no-ops when a tab
with the same id is already present, and from any state with at most one tab
for that id, two consecutive `addTab` calls leave exactly one tab with that
id. -/
theorem addTab_idempotent (st : SessionState) (tab : ConnectionTab) :
    ((∃ t ∈ st.connectionStore.tabs, t.id = tab.id) → addTab tab st = st) ∧
    (st.connectionStore.tabs.countP (fun t => t.id == tab.id) ≤ 1 →
      (addTab tab (addTab tab st)).connectionStore.tabs.countP
        (fun t => t.id == tab.id) = 1) := by
  have hnoop : ∀ st' : SessionState,
      (∃ t ∈ st'.connectionStore.tabs, t.id = tab.id) → addTab tab st' = st' := by
    intro st' hex
    have hf : (st'.connectionStore.tabs.find? (fun t => t.id == tab.id)).isSome := by
      rw [List.find?_isSome]
      obtain ⟨t, ht, hid⟩ := hex
      exact ⟨t, ht, by simp [hid]⟩
    unfold addTab
    rw [if_pos hf]
  refine ⟨hnoop st, ?_⟩
  intro hle
  by_cases hex : ∃ t ∈ st.connectionStore.tabs, t.id = tab.id
  · rw [hnoop st hex, hnoop st hex]
    have hpos : 0 < st.connectionStore.tabs.countP (fun t => t.id == tab.id) := by
      rw [List.countP_pos_iff]
      obtain ⟨t, ht, hid⟩ := hex
      exact ⟨t, ht, by simp [hid]⟩
    omega
  · have hf : (st.connectionStore.tabs.find? (fun t => t.id == tab.id)) = none := by
      rw [List.find?_eq_none]
      intro t ht hpt
      exact hex ⟨t, ht, by simpa using hpt⟩
    have h1 : addTab tab st =
        { connectionStore :=
            { tabs := st.connectionStore.tabs ++ [tab],
              idx := ((st.connectionStore.tabs ++ [tab]).length : Int) }
          contentStore := { st.contentStore with tabs := [NEW_QUERY_TAB] } } := by
      unfold addTab
      rw [hf]
      rfl
    have h2 : addTab tab (addTab tab st) = addTab tab st := by
      apply hnoop
      rw [h1]
      exact ⟨tab, by simp, rfl⟩
    rw [h2, h1]
    have hzero : st.connectionStore.tabs.countP (fun t => t.id == tab.id) = 0 := by
      rw [List.countP_eq_zero]
      intro t ht
      simp only [beq_iff_eq]
      intro hid
      exact hex ⟨t, ht, hid⟩
    simp [List.countP_append, hzero]

/-- Witness for C5: adding the same tab twice to the empty store leaves one
matching tab. -/
theorem addTab_idempotent_witness :
    (addTab tConnA (addTab tConnA stEmpty)).connectionStore.tabs.countP
      (fun t => t.id == tConnA.id) = 1 :=
  (addTab_idempotent stEmpty tConnA).2 (by decide)

/-- Claim C6: on a store without the new tab id, `addTab` appends the tab,
resets the content tabs to the single fresh `NEW_QUERY_TAB` (label `"Query"`,
empty query, empty results), and sets `connectionStore.idx` to the new length
of the connection tabs; when the store was empty, the cursor lands at `1` and
`getActiveConnection()` (reading `tabs[idx - 1]`) returns the added tab. -/
theorem addTab_fresh_appends (st : SessionState) (tab : ConnectionTab)
    (h : ∀ t ∈ st.connectionStore.tabs, t.id ≠ tab.id) :
    (addTab tab st).connectionStore.tabs = st.connectionStore.tabs ++ [tab] ∧
    (addTab tab st).contentStore.tabs = [NEW_QUERY_TAB] ∧
    NEW_QUERY_TAB.label = "Query" ∧
    NEW_QUERY_TAB.data = TabData.query { query := "", results := [] } ∧
    (addTab tab st).connectionStore.idx = (st.connectionStore.tabs.length : Int) + 1 ∧
    (st.connectionStore.tabs = [] →
      (addTab tab st).connectionStore.idx = 1 ∧
      getActiveConnection (addTab tab st).connectionStore = some tab) := by
  have hf : (st.connectionStore.tabs.find? (fun t => t.id == tab.id)) = none := by
    rw [List.find?_eq_none]
    intro t ht hpt
    exact h t ht (by simpa using hpt)
  have h1 : addTab tab st =
      { connectionStore :=
          { tabs := st.connectionStore.tabs ++ [tab],
            idx := ((st.connectionStore.tabs ++ [tab]).length : Int) }
        contentStore := { st.contentStore with tabs := [NEW_QUERY_TAB] } } := by
    unfold addTab
    rw [hf]
    rfl
  rw [h1]
  refine ⟨rfl, rfl, rfl, rfl, by simp, ?_⟩
  intro hempty
  rw [hempty]
  exact ⟨rfl, rfl⟩

/-- Witness for C6: adding a tab to the fresh empty state puts the cursor at
1 and makes the new tab active. -/
theorem addTab_fresh_appends_witness :
    (addTab tConnA stEmpty).connectionStore.idx = 1 ∧
    getActiveConnection (addTab tConnA stEmpty).connectionStore = some tConnA :=
  (addTab_fresh_appends stEmpty tConnA (by simp [stEmpty])).2.2.2.2.2 rfl

/-- Auxiliary: under the "next call arrives at or before the pending fire"
relation, only the last call's timer survives. -/
theorem fireTimes_coalesce (delay : Int) :
    ∀ (times : List Int) (h : times ≠ []),
      List.Chain' (fun a b => b ≤ a + delay) times →
      fireTimes delay times = [times.getLast h + delay] := by
  intro times
  induction times with
  | nil => intro h; exact absurd rfl h
  | cons t rest ih =>
      intro h hchain
      cases rest with
      | nil => rfl
      | cons t2 rest' =>
          rw [List.chain'_cons] at hchain
          have hstep : fireTimes delay (t :: t2 :: rest') =
              (if t2 ≤ t + delay then [] else [t + delay]) ++
                fireTimes delay (t2 :: rest') := rfl
          rw [hstep, if_pos hchain.1, List.nil_append, ih (by simp) hchain.2,
            List.getLast_cons (by simp : (t2 :: rest') ≠ [])]

/-- Auxiliary: folding "keep the newest" over a non-empty timeline yields the
last entry's state. -/
theorem foldl_pick_last (init : SessionState) :
    ∀ (l : List (Int × SessionState)) (h : l ≠ []),
      l.foldl (fun _ c => c.2) init = (l.getLast h).2 := by
  intro l
  induction l generalizing init with
  | nil => intro h; exact absurd rfl h
  | cons c rest ih =>
      intro h
      cases rest with
      | nil => rfl
      | cons c2 rest' =>
          rw [List.foldl_cons, ih c.2 (by simp),
            List.getLast_cons (by simp : (c2 :: rest') ≠ [])]

/-- Auxiliary: in a `≤`-chained list every element is at most the last one. -/
theorem mem_le_getLast :
    ∀ (l : List Int) (h : l ≠ []), List.Chain' (· ≤ ·) l →
      ∀ x ∈ l, x ≤ l.getLast h := by
  intro l
  induction l with
  | nil => intro h; exact absurd rfl h
  | cons t rest ih =>
      intro h hchain x hx
      cases rest with
      | nil =>
          rcases List.mem_singleton.mp hx with rfl
          exact le_refl _
      | cons t2 rest' =>
          rw [List.chain'_cons] at hchain
          rw [List.getLast_cons (by simp)]
          rcases List.mem_cons.mp hx with rfl | hx'
          · exact le_trans hchain.1
              (ih (by simp) hchain.2 t2 (List.mem_cons_self _ _))
          · exact ih (by simp) hchain.2 x hx'

/-- Claim C9 (debounce modelled from the spec, `utils/utils` not being among
the visible sources): for a non-empty burst of mutating calls, each arriving
strictly after the previous one but at or before its pending fire time,
exactly one persistence write of both stores happens — at the last call's
time plus the delay — and it serializes the state current at fire time, i.e.
the state after the last call of the burst, not any earlier snapshot. -/
theorem debounce_single_write (delay : Int) (init : SessionState)
    (calls : List (Int × SessionState)) (hne : calls ≠ []) (hpos : 0 < delay)
    (hchain : List.Chain' (fun a b => a.1 < b.1 ∧ b.1 ≤ a.1 + delay) calls) :
    updateStoreWrites delay init calls =
      [((calls.getLast hne).1 + delay,
        ((calls.getLast hne).2.connectionStore, (calls.getLast hne).2.contentStore))] := by
  have hmapne : calls.map Prod.fst ≠ [] := by simpa using hne
  have hchainDel : List.Chain' (fun a b => b ≤ a + delay) (calls.map Prod.fst) := by
    rw [List.chain'_map]
    exact hchain.imp (fun a b hab => hab.2)
  have hchainLe : List.Chain' (· ≤ ·) (calls.map Prod.fst) := by
    rw [List.chain'_map]
    exact hchain.imp (fun a b hab => le_of_lt hab.1)
  have hlastmap : (calls.map Prod.fst).getLast hmapne = (calls.getLast hne).1 := by
    rw [List.getLast_map]
  have hfire := fireTimes_coalesce delay (calls.map Prod.fst) hmapne hchainDel
  have hstate : stateAtTime calls init ((calls.getLast hne).1 + delay) =
      (calls.getLast hne).2 := by
    unfold stateAtTime
    have hall : ∀ c ∈ calls, (decide (c.1 ≤ (calls.getLast hne).1 + delay)) = true := by
      intro c hc
      have hmem : c.1 ∈ calls.map Prod.fst := List.mem_map_of_mem Prod.fst hc
      have hle := mem_le_getLast (calls.map Prod.fst) hmapne hchainLe c.1 hmem
      rw [hlastmap] at hle
      simp only [decide_eq_true_eq]
      omega
    rw [List.filter_eq_self.mpr hall]
    exact foldl_pick_last init calls hne
  unfold updateStoreWrites
  rw [hfire, hlastmap, List.map_singleton, hstate]

/-- Witness for C9: two calls one time unit apart with delay 3 produce the
single write at time 4, serializing the state after the second call. -/
theorem debounce_single_write_witness :
    updateStoreWrites 3 stEmpty callsW = [(4, (stB.connectionStore, stB.contentStore))] := by
  rw [debounce_single_write 3 stEmpty callsW (by simp [callsW]) (by norm_num)
      (by
        show List.Chain' _ [((0 : Int), stA), ((1 : Int), stB)]
        refine List.chain'_cons.mpr ⟨⟨by norm_num, by norm_num⟩, ?_⟩
        exact List.chain'_singleton _)]
  rfl

/-- Claim C10: hydration of a parsed blob keeps the persisted `idx` verbatim
(the spread `{...conn_tabs, tabs}` only replaces `tabs`), so when the saved
`idx` exceeds the number of tabs surviving reconnection the restored cursor
dangles and `getActiveConnection()` returns `undefined` right after
startup. -/
theorem hydration_keeps_saved_idx (s : ConnectionStore)
    (contentBlob : Blob ContentStore) (ok : Nat → Bool)
    (h : ((hydrateTabs ok s.tabs).length : Int) < s.idx) :
    onMountHydrate (Blob.parsed s) contentBlob ok =
      Except.ok ({ tabs := hydrateTabs ok s.tabs, idx := s.idx },
        getSavedContentData contentBlob) ∧
    getActiveConnection { tabs := hydrateTabs ok s.tabs, idx := s.idx } = none := by
  refine ⟨rfl, ?_⟩
  unfold getActiveConnection jsIndex
  dsimp only
  rw [if_pos (by omega)]
  rw [List.get?_eq_getElem?, List.getElem?_eq_none]
  omega

/-- Witness for C10: a persisted cursor of 5 with every reconnection failing
leaves no surviving tab and a dangling cursor. -/
theorem hydration_keeps_saved_idx_witness :
    getActiveConnection
      { tabs := hydrateTabs (fun _ => false) (ConnectionStore.mk [tConnA] 5).tabs,
        idx := (ConnectionStore.mk [tConnA] 5).idx } = none :=
  (hydration_keeps_saved_idx (ConnectionStore.mk [tConnA] 5) Blob.absent
    (fun _ => false) (by decide)).2

end Noir
